import Mathlib

/-!
Verification of the matching/reconciliation engine of the
Pure Project-Publication Relation Assistant (`pla.py`).

The Python source is shallowly embedded: pure fragments become Lean
functions; every remote HTTP call made while processing a row is an input
supplied through an explicit "world" of responses; a Python exception that
a `try/except` does not catch is modelled as `Except.error`.  Strings and
lists follow the source; character-level helpers mirror the Python
standard-library behavior they stand for (`str.strip`, `urllib.parse.urlparse`,
`uuid.UUID`) on the ASCII inputs the tool handles.
-/

namespace Pla

/-- Python exceptions, by the class distinction the source cares about:
`except ValueError` (line 125) catches `ValueError` and its subclasses such
as `json.JSONDecodeError`; every other exception class is `otherError`. -/
inductive PyExn
  | valueError
  | otherError
deriving DecidableEq

/-- The text `str(e)` rendered into the f-string
`f"DOI lookup failed: {e}"`; the concrete message is irrelevant to the
control flow, only the class is kept. -/
def PyExn.msg : PyExn → String
  | .valueError => "ValueError"
  | .otherError => "OtherError"

/-! ## Character-level helpers (Python string methods) -/

/-- ASCII whitespace stripped by Python `str.strip()`. -/
def pyWs (c : Char) : Bool :=
  c = ' ' || c = '\t' || c = '\n' || c = '\r' || c = '\x0b' || c = '\x0c'

/-- Strip characters satisfying `p` from both ends of a character list
(Python `str.strip(...)`). -/
def stripEnds (p : Char → Bool) (l : List Char) : List Char :=
  ((l.dropWhile p).reverse.dropWhile p).reverse

/-- Python `str.strip()` (ASCII whitespace). -/
def pyStrip (s : String) : String :=
  ⟨stripEnds pyWs s.data⟩

/-- Whether the first list leads the second (Python `str.startswith`). -/
def leadsWith : List Char → List Char → Bool
  | [], _ => true
  | _ :: _, [] => false
  | p :: ps, x :: xs => if p = x then leadsWith ps xs else false

/-- Characters lowered by Python `str.lower()` restricted to ASCII. -/
def lowerStr (s : String) : String :=
  ⟨s.data.map Char.toLower⟩

/-- Take until the first occurrence of `c` (exclusive); Python
`s.split(c, 1)[0]`. -/
def cTake (c : Char) : List Char → List Char
  | [] => []
  | x :: xs => if x = c then [] else x :: cTake c xs

/-- Split at the first occurrence of `c`; the separator is dropped. -/
def cSplitAt (c : Char) : List Char → Option (List Char × List Char)
  | [] => none
  | x :: xs =>
    if x = c then some ([], xs)
    else (cSplitAt c xs).map (fun p => (x :: p.1, p.2))

/-- Split at the last occurrence of `c`; the separator is dropped. -/
def cSplitAtLast (c : Char) (l : List Char) : Option (List Char × List Char) :=
  match cSplitAt c l.reverse with
  | some (a, b) => some (b.reverse, a.reverse)
  | none => none

/-- Python `str.lstrip("/")`. -/
def dropSlashes (l : List Char) : List Char :=
  l.dropWhile (fun c => c = '/')

/-! ## `urllib.parse.urlparse(...).path`

Model of the CPython `urlsplit`/`urlparse` path component: split a valid
scheme at the first `:`, skip a `//netloc` up to the next `/`, `?` or `#`,
cut fragment and query, and (for schemes that use parameters) cut `;params`
from the last path segment. -/

/-- Characters allowed in a URL scheme after the first (CPython
`scheme_chars`). -/
def schemeChar (c : Char) : Bool :=
  c.isAlphanum || c = '+' || c = '-' || c = '.'

/-- A valid scheme candidate: nonempty, letter first, scheme chars after. -/
def validScheme : List Char → Bool
  | [] => false
  | x :: xs => x.isAlpha && xs.all schemeChar

/-- Schemes for which `urlparse` splits `;parameters` off the path
(CPython `uses_params`, lowercased scheme). -/
def usesParams : List String :=
  ["", "ftp", "hdl", "prospero", "http", "imap", "https", "shttp", "rtsp",
   "rtspu", "sip", "sips", "mms", "sftp", "tel"]

/-- CPython `_splitparams`: drop `;...` from the last `/`-segment. -/
def paramsCut (l : List Char) : List Char :=
  match cSplitAtLast '/' l with
  | some (a, b) => a ++ '/' :: cTake ';' b
  | none => cTake ';' l

/-- Split a valid `scheme:` off the front (CPython `urlsplit`): the
lowercased scheme and the remainder. -/
def schemeSplit (l : List Char) : List Char × List Char :=
  match cSplitAt ':' l with
  | some (b, a) => if validScheme b then (b.map Char.toLower, a) else ([], l)
  | none => ([], l)

/-- Skip a leading `//netloc`, up to the next `/`, `?` or `#`. -/
def netlocCut : List Char → List Char
  | '/' :: '/' :: r => r.dropWhile (fun c => !(c = '/' || c = '?' || c = '#'))
  | other => other

/-- The `path` component of `urlparse` on a character list. -/
def urlPathOf (l : List Char) : List Char :=
  if (⟨(schemeSplit l).1⟩ : String) ∈ usesParams then
    paramsCut (cTake '?' (cTake '#' (netlocCut (schemeSplit l).2)))
  else cTake '?' (cTake '#' (netlocCut (schemeSplit l).2))

/-- The `path` component of `urlparse` on a string. -/
def urlparsePath (s : String) : String :=
  ⟨urlPathOf s.data⟩

/-- DOI normalization, `pla.py` lines 106-112: strip the raw cell; if it
starts with `http`, take the URL path and strip leading slashes, else use
as-is. -/
def normalizeDoi (raw : String) : String :=
  if leadsWith "http".data (stripEnds pyWs raw.data) then
    ⟨dropSlashes (urlPathOf (stripEnds pyWs raw.data))⟩
  else ⟨stripEnds pyWs raw.data⟩

/-! ## `uuid.UUID(token, version=4)` acceptance

CPython removes every `urn:` and `uuid:` occurrence, strips surrounding
braces, removes dashes, and requires 32 hexadecimal digits (the common
path of `int(hex, 16)`; exotic int-literal forms with underscores or a
sign are not modelled).  `version=4` only overwrites the version bits and
rejects nothing, so acceptance is plain parseability. -/

/-- Remove every occurrence of `urn:` (Python `str.replace("urn:", "")`). -/
def dropUrnTags : List Char → List Char
  | 'u' :: 'r' :: 'n' :: ':' :: rest => dropUrnTags rest
  | c :: cs => c :: dropUrnTags cs
  | [] => []

/-- Remove every occurrence of `uuid:` (Python `str.replace("uuid:", "")`). -/
def dropUuidTags : List Char → List Char
  | 'u' :: 'u' :: 'i' :: 'd' :: ':' :: rest => dropUuidTags rest
  | c :: cs => c :: dropUuidTags cs
  | [] => []

/-- A curly brace, written by code point to keep braces out of literals. -/
def braceChar (c : Char) : Bool :=
  c = '\x7b' || c = '\x7d'

/-- A hexadecimal digit. -/
def hexDigit (c : Char) : Bool :=
  c.isDigit || ('a' ≤ c && c ≤ 'f') || ('A' ≤ c && c ≤ 'F')

/-- Whether `uuid.UUID(s, version=4)` succeeds. -/
def isPyUUID (s : String) : Bool :=
  let l := dropUuidTags (dropUrnTags s.data)
  let l := stripEnds braceChar l
  let l := l.filter (fun c => c != '-')
  l.length == 32 && l.all hexDigit

/-! ## Remote data model

JSON payloads, decoded to the fields the script reads.  An `Option` field
stands for a `dict.get` that may be absent (Python `None`). -/

/-- One entry of a project's `identifiers` list.  `idStr` is the value of
`str(identifier.get("id", ""))` (already stringified, `""` when absent);
`typeUri` is `identifier.get("type", {}).get("uri")`. -/
structure Identifier where
  idStr : String
  typeUri : Option String
deriving DecidableEq

/-- A project entity as read by the script. -/
structure ProjectItem where
  uuid : Option String
  titleEnGB : Option String
  titleValue : Option String
  identifiers : List Identifier
deriving DecidableEq

/-- Body of `proj_resp.json()` for the project search.  `null` models a
JSON `null` body, on which `.get("items", [])` raises `AttributeError`. -/
inductive SearchJson
  | null
  | obj (items : List ProjectItem)
deriving DecidableEq

/-- One `electronicVersions` entry.  `doi` is `ev.get("doi", "")`
(`""` when absent). -/
structure ElectronicVersion where
  typeDiscriminator : Option String
  doi : String
deriving DecidableEq

/-- A research-output entity as read by the script (`found_pub["uuid"]` is
read by direct indexing, so it is modelled as present). -/
structure PubItem where
  uuid : String
  titleValue : Option String
  electronicVersions : List ElectronicVersion
deriving DecidableEq

/-- Body of `pub_resp.json()`: `count` is `pub_json.get("count", 0)`. -/
inductive PubJson
  | null
  | obj (count : Int) (items : List PubItem)
deriving DecidableEq

/-- Body of the relation-audit `GET .../projects/{uuid}` response: the
entries of `researchOutputs`, each holding `researchOutput.uuid` when the
guard `"researchOutput" in ro and "uuid" in ro["researchOutput"]` passes. -/
inductive AuditJson
  | null
  | obj (researchOutputs : List (Option String))
deriving DecidableEq

deriving instance DecidableEq for Except

/-- An HTTP response object: `ok` is `resp.ok`; `jsonBody` is the result of
calling `resp.json()`, which may itself raise (a `ValueError` subclass on
malformed JSON). -/
structure HttpResp (α : Type) where
  ok : Bool
  jsonBody : Except PyExn α
deriving DecidableEq

/-- The responses the remote system gives to the calls one row makes.
An outer `Except.error` models the request call itself raising (for
example a transport error).  The direct-fetch body is `Option ProjectItem`:
`none` stands for a falsy JSON body (`null` or an empty object), which
leaves `found_project` falsy. -/
structure RowWorld where
  uuidFetch : Except PyExn (HttpResp (Option ProjectItem))
  projSearch : Except PyExn (HttpResp SearchJson)
  pubSearch : Except PyExn (HttpResp PubJson)
  auditFetch : Except PyExn (HttpResp AuditJson)
deriving DecidableEq

/-- An input row: the `projectid`, `grantid` and `doi` cells, `none` when
the column is missing or the cell is empty. -/
structure RowIn where
  projectid : Option String
  grantid : Option String
  doi : Option String
deriving DecidableEq

/-- The result columns the batch loop writes for one row
(`pla.py` lines 80-89). -/
structure RowResult where
  project_uuid : Option String
  publication_uuid : Option String
  project_title : Option String
  publication_title : Option String
  status : Option String
  link : Bool
  matched_identifier_type_uri : Option String
  matched_identifier_label : Option String
  identifier_warning : Option String
  input_id_source : Option String
deriving DecidableEq

/-- Which remote calls the row actually issued. -/
structure RowTrace where
  uuidFetchCalled : Bool
  searchCalled : Bool
  pubSearchCalled : Bool
  auditCalled : Bool
deriving DecidableEq

/-! ## Identifier Resolver -/

/-- Loop state of the identifier-search scan (`pla.py` lines 133-142):
`match_count`, `found_project`, and the bound `uuid` / identifier type. -/
structure ScanOut where
  matchCount : Nat
  found : Option ProjectItem
  uuid : Option String
  typeUri : Option String
deriving DecidableEq

/-- Inner loop over one candidate's `identifiers`: count every identifier
whose stripped `id` equals the token; bind project and type only while
`found_project` is still unset. -/
def scanIdents (tok : String) (item : ProjectItem) (acc : ScanOut) :
    List Identifier → ScanOut
  | [] => acc
  | i :: is =>
    if pyStrip i.idStr = tok then
      if acc.found.isNone then
        scanIdents tok item
          ⟨acc.matchCount + 1, some item, item.uuid, i.typeUri⟩ is
      else
        scanIdents tok item
          ⟨acc.matchCount + 1, acc.found, acc.uuid, acc.typeUri⟩ is
    else scanIdents tok item acc is

/-- Outer loop over the returned candidates. -/
def scanItems (tok : String) : List ProjectItem → ScanOut → ScanOut
  | [], acc => acc
  | it :: its, acc => scanItems tok its (scanIdents tok it acc it.identifiers)

/-- The full identifier-search scan, started from the zero state. -/
def scanItemsAll (tok : String) (items : List ProjectItem) : ScanOut :=
  scanItems tok items ⟨0, none, none, none⟩

/-- The warning `"⚠ Multiple matches for " ++ input_source`, set iff `match_count > 1`. -/
def ambWarning (src : String) (n : Nat) : Option String :=
  if 1 < n then some ("⚠ Multiple matches for " ++ src) else none

/-- Python `idtype_map.get(uri, uri)` with a possibly absent uri. -/
def labelOf (m : List (String × String)) : Option String → Option String
  | none => none
  | some u => some (((m.find? (fun kv => kv.1 == u)).map (fun kv => kv.2)).getD u)

/-- UUID direct-fetch stage (`pla.py` lines 118-126), inside
`try: ... except ValueError: pass`.  Returns the `project_uuid` variable and
`found_project`, plus whether the fetch was issued.  A non-`ValueError`
exception escapes. -/
def uuidStage (tok : String) (w : RowWorld) :
    Except PyExn (Option String × Option ProjectItem) × Bool :=
  if isPyUUID tok then
    (match w.uuidFetch with
     | .error e => if e = .valueError then .ok (some tok, none) else .error e
     | .ok resp =>
       if resp.ok then
         match resp.jsonBody with
         | .error e => if e = .valueError then .ok (some tok, none) else .error e
         | .ok body => .ok (some tok, body)
       else .ok (some tok, none), true)
  else (.ok (none, none), false)

/-- Variables live after the identifier-search stage. -/
structure SearchRes where
  pu : Option String
  found : Option ProjectItem
  muri : Option String
  mlabel : Option String
  warn : Option String
deriving DecidableEq

/-- Identifier-search stage (`pla.py` lines 129-144), entered only when
`found_project` is falsy.  No exception handler: a raising request or
`.json()` escapes, and a `null` body makes `.get("items", [])` raise. -/
def searchStage (tok src : String) (idtypeMap : List (String × String))
    (pu0 : Option String) (found0 : Option ProjectItem) (w : RowWorld) :
    Except PyExn SearchRes × Bool :=
  if found0.isNone then
    (match w.projSearch with
     | .error e => .error e
     | .ok resp =>
       if resp.ok then
         match resp.jsonBody with
         | .error e => .error e
         | .ok .null => .error .otherError
         | .ok (.obj items) =>
           let sc := scanItemsAll tok items
           if sc.found.isSome then
             .ok ⟨sc.uuid, sc.found, sc.typeUri, labelOf idtypeMap sc.typeUri,
                  ambWarning src sc.matchCount⟩
           else .ok ⟨pu0, found0, none, none, ambWarning src sc.matchCount⟩
       else .ok ⟨pu0, found0, none, none, none⟩, true)
  else (.ok ⟨pu0, found0, none, none, none⟩, false)

/-! ## Publication Resolver and Relation Auditor -/

/-- Exact-DOI scan over the search results (`pla.py` lines 167-174):
first candidate whose electronic versions contain a `DoiElectronicVersion`
with a case-insensitively equal DOI. -/
def findPub (doi : String) (items : List PubItem) : Option PubItem :=
  items.find? (fun it => it.electronicVersions.any (fun ev =>
    ev.typeDiscriminator == some "DoiElectronicVersion" &&
      lowerStr (pyStrip ev.doi) == lowerStr doi))

/-- Outcome of the publication lookup. -/
inductive PubOutcome
  | failedStatus (e : PyExn)
  | notFound
  | foundPub (p : PubItem)
deriving DecidableEq

/-- Publication lookup (`pla.py` lines 154-178).  The request and the
`.json()` call sit inside `try: ... except Exception`, whose handler turns
the exception into the row status; the later `pub_json.get("count", 0)` on
a `null` body (only reached when `pub_resp.ok`) is outside the handler and
raises. -/
def pubStage (doi : String) (w : RowWorld) : Except PyExn PubOutcome :=
  match w.pubSearch with
  | .error e => .ok (.failedStatus e)
  | .ok resp =>
    match resp.jsonBody with
    | .error e => .ok (.failedStatus e)
    | .ok pj =>
      if resp.ok then
        match pj with
        | .null => .error .otherError
        | .obj count items =>
          if 0 < count then
            match findPub doi items with
            | some p => .ok (.foundPub p)
            | none => .ok .notFound
          else .ok .notFound
      else .ok .notFound

/-- Relation audit (`pla.py` lines 185-190):
`requests.get(...).json()` with no handler and no `ok` check; a `null`
body makes `.get("researchOutputs", [])` raise.  Returns whether
`pub_uuid` is among the existing related-output identifiers. -/
def auditStage (pubUuid : String) (w : RowWorld) : Except PyExn Bool :=
  match w.auditFetch with
  | .error e => .error e
  | .ok resp =>
    match resp.jsonBody with
    | .error e => .error e
    | .ok .null => .error .otherError
    | .ok (.obj ros) => .ok ((ros.filterMap id).contains pubUuid)

/-! ## Batch Reconciler -/

/-- Python `str(row.get("projectid", "") or "").strip()`. -/
def pidOf (row : RowIn) : String := pyStrip (row.projectid.getD "")

/-- Python `str(row.get("grantid", "") or "").strip()`. -/
def gidOf (row : RowIn) : String := pyStrip (row.grantid.getD "")

/-- The `project_id_value` variable: ProjectID preferred, else GrantID. -/
def pidValOf (row : RowIn) : String :=
  if pidOf row ≠ "" then pidOf row else gidOf row

/-- The `input_source` value recorded for the row. -/
def srcOf (row : RowIn) : Option String :=
  if pidOf row ≠ "" then some "ProjectID"
  else if gidOf row ≠ "" then some "GrantID" else none

/-- Python `found_project.get("title", {}).get("en_GB", "") or
found_project.get("title", {}).get("value", "")`. -/
def pyTitleOf (fp : ProjectItem) : String :=
  let a := fp.titleEnGB.getD ""
  if a ≠ "" then a else fp.titleValue.getD ""

/-- One iteration of the batch loop (`pla.py` lines 93-196) over one input
row, against the remote responses `w`.  Returns the row's result columns,
or the exception that escapes the loop body, together with the calls
issued. -/
def processRow (idtypeMap : List (String × String)) (row : RowIn)
    (w : RowWorld) : Except PyExn RowResult × RowTrace :=
  let r0 : RowResult :=
    { project_uuid := none, publication_uuid := none, project_title := none,
      publication_title := none, status := none, link := false,
      matched_identifier_type_uri := none, matched_identifier_label := none,
      identifier_warning := none, input_id_source := srcOf row }
  if pidValOf row = "" then
    (.ok { r0 with status := some "No ProjectID or GrantID provided" },
     ⟨false, false, false, false⟩)
  else
    let doi := normalizeDoi (row.doi.getD "")
    let ua := uuidStage (pidValOf row) w
    match ua.1 with
    | .error e => (.error e, ⟨ua.2, false, false, false⟩)
    | .ok (pu0, found0) =>
      let ss := searchStage (pidValOf row) ((srcOf row).getD "None") idtypeMap
        pu0 found0 w
      match ss.1 with
      | .error e => (.error e, ⟨ua.2, ss.2, false, false⟩)
      | .ok sres =>
        match sres.found with
        | none =>
          (.ok { r0 with matched_identifier_type_uri := sres.muri,
                         matched_identifier_label := sres.mlabel,
                         identifier_warning := sres.warn,
                         status := some "Project not found" },
           ⟨ua.2, ss.2, false, false⟩)
        | some fp =>
          let r1 := { r0 with project_uuid := sres.pu,
                              project_title := some (pyTitleOf fp),
                              matched_identifier_type_uri := sres.muri,
                              matched_identifier_label := sres.mlabel,
                              identifier_warning := sres.warn }
          match pubStage doi w with
          | .error e => (.error e, ⟨ua.2, ss.2, true, false⟩)
          | .ok (.failedStatus e) =>
            (.ok { r1 with status := some ("DOI lookup failed: " ++ e.msg) },
             ⟨ua.2, ss.2, true, false⟩)
          | .ok .notFound =>
            (.ok { r1 with status := some "DOI not found in Pure" },
             ⟨ua.2, ss.2, true, false⟩)
          | .ok (.foundPub pub) =>
            let r2 := { r1 with publication_uuid := some pub.uuid,
                                publication_title := some (pub.titleValue.getD "") }
            match auditStage pub.uuid w with
            | .error e => (.error e, ⟨ua.2, ss.2, true, true⟩)
            | .ok true =>
              (.ok { r2 with status := some "Already linked" },
               ⟨ua.2, ss.2, true, true⟩)
            | .ok false =>
              (.ok { r2 with status := some "Ready to link", link := true },
               ⟨ua.2, ss.2, true, true⟩)

/-- The whole batch loop: rows processed in order, each against its own
remote responses; an exception escaping one row's processing aborts the
loop (the remaining rows are not processed). -/
def processBatch (idtypeMap : List (String × String)) :
    List (RowIn × RowWorld) → Except PyExn (List RowResult)
  | [] => .ok []
  | (row, w) :: rest =>
    match (processRow idtypeMap row w).1 with
    | .error e => .error e
    | .ok res =>
      match processBatch idtypeMap rest with
      | .error e => .error e
      | .ok out => .ok (res :: out)

/-! ## Writeback Executor

The confirm handler (`pla.py` lines 206-254).  The remote store is a map
from project uuid to its current related-output set; a `PUT` replaces that
set with the payload.  Output uuids are `Option String` because the
payload is built from `publication_uuid` column values, which Python would
carry through the set union even when `None`. -/

/-- Line 206: `df[df["link"] & (df["status"] == "Ready to link") &
(df["identifier_warning"].isna())]`. -/
def toLinkFilter (rows : List RowResult) : List RowResult :=
  rows.filter (fun r =>
    r.link && (r.status == some "Ready to link") && (r.identifier_warning == none))

/-- Insert into a `<`-sorted list of strings. -/
def insSorted (x : String) : List String → List String
  | [] => [x]
  | y :: ys => if x < y then x :: y :: ys else y :: insSorted x ys

/-- Insertion sort on strings (pandas `groupby` iterates keys in sorted
order). -/
def sSort : List String → List String
  | [] => []
  | x :: xs => insSorted x (sSort xs)

/-- The group keys of `to_link_df.groupby("project_uuid")`: distinct
non-null `project_uuid` values, in sorted order (pandas drops null keys
and sorts). -/
def wbGroupKeys (rows : List RowResult) : List String :=
  sSort (((toLinkFilter rows).filterMap (fun r => r.project_uuid)).dedup)

/-- Python `group["publication_uuid"].tolist()` for the group of project `p`:
the publication uuids of the filtered rows with that key, in row order. -/
def wbToAdd (rows : List RowResult) (p : String) : List (Option String) :=
  ((toLinkFilter rows).filter (fun r => r.project_uuid == some p)).map
    (fun r => r.publication_uuid)

/-- The grouped iteration `for proj_uuid, group in grouped`. -/
def wbGroups (rows : List RowResult) : List (String × List (Option String)) :=
  (wbGroupKeys rows).map (fun p => (p, wbToAdd rows p))

/-- The remote store: each project's current related-output set. -/
def ProjState : Type := String → Finset (Option String)

/-- A `PUT` response. -/
structure PutResp where
  ok : Bool
  statusCode : Nat

/-- Observable effects of the writeback loop: the `PUT` calls issued with
their payload sets, the log rows `(proj_uuid, puid, result)`, and the
success/fail counters. -/
structure WbEffects where
  puts : List (String × Finset (Option String))
  log : List (String × Option String × String)
  success : Nat
  fail : Nat
deriving DecidableEq

/-- Python `all_uuids = list(set(existing + to_add))` for one group, as a set:
the freshly fetched related-output set of the group's project, union the
group's publication uuids. -/
def wbMerge (st : ProjState) (g : String × List (Option String)) :
    Finset (Option String) :=
  st g.1 ∪ g.2.toFinset

/-- The remote state after a successful `PUT` of the merged set. -/
def wbUpdate (st : ProjState) (g : String × List (Option String)) : ProjState :=
  fun q => if q = g.1 then wbMerge st g else st q

/-- Prepend one group's dry-run log rows. -/
def WbEffects.withDry (e : WbEffects) (g : String × List (Option String)) :
    WbEffects :=
  ⟨e.puts, g.2.map (fun u => (g.1, u, "✅ Dry run")) ++ e.log, e.success, e.fail⟩

/-- Prepend one group's successful `PUT` and its log rows. -/
def WbEffects.withLinked (e : WbEffects) (g : String × List (Option String))
    (payload : Finset (Option String)) : WbEffects :=
  ⟨(g.1, payload) :: e.puts, g.2.map (fun u => (g.1, u, "✅ Linked")) ++ e.log,
   g.2.length + e.success, e.fail⟩

/-- Prepend one group's failed `PUT` and its log rows. -/
def WbEffects.withFailed (e : WbEffects) (g : String × List (Option String))
    (payload : Finset (Option String)) (code : Nat) : WbEffects :=
  ⟨(g.1, payload) :: e.puts,
   g.2.map (fun u => (g.1, u, "❌ Failed (" ++ toString code ++ ")")) ++ e.log,
   e.success, g.2.length + e.fail⟩

/-- The writeback loop (`pla.py` lines 219-254) over the project groups:
per group, re-fetch the current set, take `list(set(existing + to_add))`,
and either log dry-run rows or `PUT` the merged set, logging per
publication.  A failed `PUT` leaves the remote state unchanged. -/
def wbRun (dryRun : Bool) (putResp : String → PutResp) (st : ProjState) :
    List (String × List (Option String)) → WbEffects × ProjState
  | [] => (⟨[], [], 0, 0⟩, st)
  | g :: gs =>
    if dryRun then
      ((wbRun dryRun putResp st gs).1.withDry g,
       (wbRun dryRun putResp st gs).2)
    else if (putResp g.1).ok then
      ((wbRun dryRun putResp (wbUpdate st g) gs).1.withLinked g (wbMerge st g),
       (wbRun dryRun putResp (wbUpdate st g) gs).2)
    else
      ((wbRun dryRun putResp st gs).1.withFailed g (wbMerge st g)
        (putResp g.1).statusCode,
       (wbRun dryRun putResp st gs).2)

/-- The whole Writeback Executor on a batch result. -/
def writeback (dryRun : Bool) (putResp : String → PutResp) (st : ProjState)
    (rows : List RowResult) : WbEffects × ProjState :=
  wbRun dryRun putResp st (wbGroups rows)

/-- A remote that accepts every write. -/
def prOk : String → PutResp := fun _ => ⟨true, 200⟩

/-! ## Spec-side definitions, benignness of remote responses, and concrete
inputs for witnesses -/

/-- Spec-side count for C5: the number of matching identifiers over all
candidates, stated as a flat sum as the claim words it. -/
def specMatchCount (tok : String) (items : List ProjectItem) : Nat :=
  (items.map (fun it =>
    (it.identifiers.filter (fun i => pyStrip i.idStr == tok)).length)).sum

/-- Spec-side binding for C5: the first candidate in result order having
a matching identifier. -/
def specFirstItem (tok : String) (items : List ProjectItem) : Option ProjectItem :=
  items.find? (fun it => it.identifiers.any (fun i => pyStrip i.idStr == tok))

/-- Spec-side binding for C5: the type uri of the first matching
identifier of the first matching candidate. -/
def specFirstTypeUri (tok : String) (items : List ProjectItem) : Option String :=
  match specFirstItem tok items with
  | none => none
  | some it =>
    match it.identifiers.find? (fun i => pyStrip i.idStr == tok) with
    | none => none
    | some i => i.typeUri

/-- The direct-fetch responses whose failures the UUID handler catches:
only `ValueError`-class exceptions (request or `.json()`). -/
def benignUuid : Except PyExn (HttpResp (Option ProjectItem)) → Bool
  | .error e => e == .valueError
  | .ok resp =>
    if resp.ok then
      match resp.jsonBody with
      | .error e => e == .valueError
      | .ok _ => true
    else true

/-- Project-search responses that raise nothing the loop cannot survive:
no raising request or `.json()`, and no ok-but-null body. -/
def benignSearch : Except PyExn (HttpResp SearchJson) → Bool
  | .error _ => false
  | .ok resp =>
    if resp.ok then
      match resp.jsonBody with
      | .ok (.obj _) => true
      | _ => false
    else true

/-- Publication-search responses that cannot crash the loop: anything
except an ok response with a JSON `null` body (the `try/except` catches a
raising request or `.json()`). -/
def benignPub : Except PyExn (HttpResp PubJson) → Bool
  | .error _ => true
  | .ok resp =>
    if resp.ok then
      match resp.jsonBody with
      | .ok .null => false
      | _ => true
    else true

/-- Audit-fetch responses that raise nothing: no raising request or
`.json()`, and no `null` body. -/
def benignAudit : Except PyExn (HttpResp AuditJson) → Bool
  | .error _ => false
  | .ok resp =>
    match resp.jsonBody with
    | .ok (.obj _) => true
    | _ => false

/-- Every call other than the publication search is well-behaved; the
publication search may fail arbitrarily short of the ok-with-null case. -/
def NonPubBenign (w : RowWorld) : Bool :=
  benignUuid w.uuidFetch && benignSearch w.projSearch &&
    benignPub w.pubSearch && benignAudit w.auditFetch

/-- One `Dry run` log row per intended addition, per group in order. -/
def intendedDryLog : List (String × List (Option String)) →
    List (String × Option String × String)
  | [] => []
  | g :: gs => g.2.map (fun u => (g.1, u, "✅ Dry run")) ++ intendedDryLog gs

/-- Concrete inputs used by witnesses and counterexamples. -/
def exIdtypeMap : List (String × String) := [("uri-x", "External Project ID")]

def exProject : ProjectItem :=
  ⟨some "proj-1", some "Demo project", none, [⟨"ABC123", some "uri-x"⟩]⟩

def exPub : PubItem :=
  ⟨"pub-1", some "Demo paper", [⟨some "DoiElectronicVersion", "10.1/x"⟩]⟩

def exRow : RowIn := ⟨some "ABC123", none, some "10.1/x"⟩

def exWorldReady : RowWorld :=
  ⟨.ok ⟨false, .ok none⟩, .ok ⟨true, .ok (.obj [exProject])⟩,
   .ok ⟨true, .ok (.obj 1 [exPub])⟩, .ok ⟨true, .ok (.obj [some "other-pub"])⟩⟩

def exWorldCrash : RowWorld := { exWorldReady with auditFetch := .error .otherError }

def exReadyRes : RowResult :=
  ⟨some "proj-1", some "pub-1", some "Demo project", some "Demo paper",
   some "Ready to link", true, some "uri-x", some "External Project ID", none,
   some "ProjectID"⟩

def exUuidStr : String := "123e4567-e89b-42d3-a456-426614174000"

def exRowUuid : RowIn := ⟨some exUuidStr, none, some "10.1/x"⟩

def exProjU : ProjectItem := ⟨some exUuidStr, some "U project", none, []⟩

def exRespU : HttpResp (Option ProjectItem) := ⟨true, .ok (some exProjU)⟩

def exWorldUuid : RowWorld := { exWorldReady with uuidFetch := .ok exRespU }

def exRespMiss : HttpResp (Option ProjectItem) := ⟨false, .ok none⟩

def exSearchResp : HttpResp SearchJson := ⟨true, .ok (.obj [])⟩

def exWorldUuidMiss : RowWorld :=
  { exWorldReady with uuidFetch := .ok exRespMiss, projSearch := .ok exSearchResp }

def exState : ProjState := fun _ => ∅

def exRowResA : RowResult :=
  ⟨some "proj-1", some "pub-1", none, none, some "Ready to link", true, none,
   none, none, none⟩

def exRowResB : RowResult :=
  ⟨some "proj-1", some "pub-2", none, none, some "Ready to link", true, none,
   none, none, none⟩

def exTwoRows : List RowResult := [exRowResA, exRowResB]

/-! ## Theorems -/

/-- C2: a row is included in the writeback candidate set iff its ready
flag is true, its status is `Ready to link`, and its ambiguity warning is
absent; in particular a row with a warning set is never auto-written. -/
theorem writeback_filter_iff (rows : List RowResult) (r : RowResult) :
    r ∈ toLinkFilter rows ↔
      r ∈ rows ∧ r.link = true ∧ r.status = some "Ready to link" ∧
        r.identifier_warning = none := by
  simp [toLinkFilter, List.mem_filter, and_assoc]

theorem scanIdents_some (tok : String) (item : ProjectItem) (f : ProjectItem)
    (is : List Identifier) :
    ∀ acc : ScanOut, acc.found = some f →
    scanIdents tok item acc is =
      ⟨acc.matchCount + (is.filter (fun i => pyStrip i.idStr == tok)).length,
       acc.found, acc.uuid, acc.typeUri⟩ := by
  induction is with
  | nil => intro acc h; simp [scanIdents]
  | cons i is ih =>
    intro acc h
    by_cases hp : pyStrip i.idStr = tok
    · simp only [scanIdents, if_pos hp]
      rw [if_neg (show ¬(acc.found.isNone = true) by simp [h])]
      rw [ih ⟨acc.matchCount + 1, acc.found, acc.uuid, acc.typeUri⟩ h]
      simp only [List.filter_cons, ScanOut.mk.injEq, hp, beq_self_eq_true,
        if_pos, List.length_cons]
      refine ⟨by omega, trivial, trivial, trivial⟩
    · simp only [scanIdents, if_neg hp]
      rw [ih acc h]
      simp only [List.filter_cons, ScanOut.mk.injEq]
      have : (pyStrip i.idStr == tok) = false := by simpa using hp
      simp [this]

theorem scanIdents_none (tok : String) (item : ProjectItem)
    (is : List Identifier) :
    ∀ acc : ScanOut, acc.found = none → acc.uuid = none → acc.typeUri = none →
    scanIdents tok item acc is =
      match is.find? (fun i => pyStrip i.idStr == tok) with
      | some i0 =>
        ⟨acc.matchCount + (is.filter (fun i => pyStrip i.idStr == tok)).length,
         some item, item.uuid, i0.typeUri⟩
      | none =>
        ⟨acc.matchCount, none, none, none⟩ := by
  induction is with
  | nil =>
    intro acc h hu ht
    obtain ⟨c, f, u, t⟩ := acc
    simp_all [scanIdents, List.find?]
  | cons i is ih =>
    intro acc h hu ht
    by_cases hp : pyStrip i.idStr = tok
    · have hb : (pyStrip i.idStr == tok) = true := by simpa using hp
      simp only [scanIdents, if_pos hp]
      rw [if_pos (show acc.found.isNone = true by simp [h])]
      rw [scanIdents_some tok item item is ⟨acc.matchCount + 1, some item, item.uuid, i.typeUri⟩ rfl]
      simp only [List.find?_cons, hb, List.filter_cons]
      simp only [cond_true, if_pos]
      simp [ScanOut.mk.injEq]
      omega
    · have hb : (pyStrip i.idStr == tok) = false := by simpa using hp
      simp only [scanIdents, if_neg hp]
      rw [ih acc h hu ht]
      simp [List.find?_cons, hb, List.filter_cons]

theorem scanItems_some (tok : String) (f : ProjectItem)
    (its : List ProjectItem) :
    ∀ acc : ScanOut, acc.found = some f →
    scanItems tok its acc =
      ⟨acc.matchCount + specMatchCount tok its, acc.found, acc.uuid, acc.typeUri⟩ := by
  induction its with
  | nil => intro acc h; simp [scanItems, specMatchCount]
  | cons it its ih =>
    intro acc h
    simp only [scanItems]
    rw [scanIdents_some tok it f it.identifiers acc h]
    rw [ih ⟨acc.matchCount + (List.filter (fun i => pyStrip i.idStr == tok) it.identifiers).length, acc.found, acc.uuid, acc.typeUri⟩ h]
    simp [specMatchCount, ScanOut.mk.injEq]
    omega

theorem scanItems_none (tok : String) (its : List ProjectItem) :
    ∀ acc : ScanOut, acc.found = none → acc.uuid = none → acc.typeUri = none →
    scanItems tok its acc =
      match specFirstItem tok its with
      | some it =>
        ⟨acc.matchCount + specMatchCount tok its, some it, it.uuid,
         match it.identifiers.find? (fun i => pyStrip i.idStr == tok) with
         | some i0 => i0.typeUri
         | none => none⟩
      | none => ⟨acc.matchCount + specMatchCount tok its, none, none, none⟩ := by
  induction its with
  | nil =>
    intro acc h hu ht
    obtain ⟨c, f, u, t⟩ := acc
    simp_all [scanItems, specFirstItem, specMatchCount, List.find?]
  | cons it its ih =>
    intro acc h hu ht
    simp only [scanItems]
    rw [scanIdents_none tok it it.identifiers acc h hu ht]
    rcases hf : it.identifiers.find? (fun i => pyStrip i.idStr == tok) with _ | i0
    · have hany : it.identifiers.any (fun i => pyStrip i.idStr == tok) = false := by
        rw [List.any_eq_false]
        intro x hx
        have := List.find?_eq_none.mp hf x hx
        simpa using this
      have hflt : (it.identifiers.filter (fun i => pyStrip i.idStr == tok)).length = 0 := by
        simp [List.length_eq_zero, List.filter_eq_nil_iff]
        intro x hx
        have := List.find?_eq_none.mp hf x hx
        simpa using this
      simp only [hf]
      rw [ih ⟨acc.matchCount, none, none, none⟩ rfl rfl rfl]
      have hsf : specFirstItem tok (it :: its) = specFirstItem tok its := by
        simp [specFirstItem, List.find?_cons, hany]
      have hmc : specMatchCount tok (it :: its) = specMatchCount tok its := by
        simp [specMatchCount, hflt]
      rw [hsf, hmc]
    · have hany : it.identifiers.any (fun i => pyStrip i.idStr == tok) = true := by
        rw [List.any_eq_true]
        refine ⟨i0, List.mem_of_find?_eq_some hf, ?_⟩
        have h2 := List.find?_some hf
        simpa using h2
      simp only [hf]
      rw [scanItems_some tok it its _ rfl]
      simp [specFirstItem, List.find?_cons, hany, specMatchCount, hf, ScanOut.mk.injEq]
      omega

/-- C5: the identifier-search scan accumulates `match_count` over all
identifiers of all candidates whose stripped raw value equals the token
(case-sensitively, not deduplicated per candidate), binds the project,
its uuid and the matched identifier type to the first match in result
order, and the ambiguity warning is set iff `match_count > 1`. -/
theorem resolver_first_match_full_count (tok src : String) (items : List ProjectItem) :
    (scanItemsAll tok items).matchCount = specMatchCount tok items
    ∧ (scanItemsAll tok items).found = specFirstItem tok items
    ∧ (scanItemsAll tok items).uuid = (specFirstItem tok items).bind ProjectItem.uuid
    ∧ (scanItemsAll tok items).typeUri = specFirstTypeUri tok items
    ∧ ((ambWarning src (scanItemsAll tok items).matchCount).isSome
        ↔ 1 < specMatchCount tok items) := by
  have h := scanItems_none tok items ⟨0, none, none, none⟩ rfl rfl rfl
  rcases hsf : specFirstItem tok items with _ | it
  · rw [hsf] at h
    simp only [scanItemsAll, h, hsf]
    refine ⟨by simp, trivial, by simp, ?_, ?_⟩
    · simp [specFirstTypeUri, hsf]
    · by_cases hn : 1 < specMatchCount tok items <;> simp [ambWarning, hn]
  · rw [hsf] at h
    simp only [scanItemsAll, h, hsf]
    refine ⟨by simp, trivial, by simp, ?_, ?_⟩
    · simp only [specFirstTypeUri, hsf]
      rcases hff : it.identifiers.find? (fun i => pyStrip i.idStr == tok) with _ | i0 <;>
        simp [hff]
    · by_cases hn : 1 < specMatchCount tok items <;> simp [ambWarning, hn]

/-- C3: for every row the Batch Reconciler completes, the ready flag
(`link`) is true iff the status is `Ready to link`. -/
theorem ready_iff (m : List (String × String)) (row : RowIn) (w : RowWorld)
    (r : RowResult) (t : RowTrace) (h : processRow m row w = (.ok r, t)) :
    r.link = true ↔ r.status = some "Ready to link" := by
  unfold processRow at h
  by_cases hp : pidValOf row = ""
  · rw [if_pos hp] at h
    rw [Prod.mk.injEq] at h
    obtain ⟨h1, h2⟩ := h
    injection h1 with h1
    subst h1
    simp
  · rw [if_neg hp] at h
    rcases hu : (uuidStage (pidValOf row) w).1 with e | ⟨pu0, found0⟩ <;>
      simp only [hu] at h
    · simp at h
    rcases hs : (searchStage (pidValOf row) ((srcOf row).getD "None") m pu0 found0 w).1
        with e | sres <;> simp only [hs] at h
    · simp at h
    rcases hf : sres.found with _ | fp <;> simp only [hf] at h
    · rw [Prod.mk.injEq] at h
      obtain ⟨h1, h2⟩ := h
      injection h1 with h1
      subst h1
      simp
    rcases hpub : pubStage (normalizeDoi (row.doi.getD "")) w with e | po <;>
      simp only [hpub] at h
    · simp at h
    rcases po with e | _ | pub
    · rw [Prod.mk.injEq] at h
      obtain ⟨h1, h2⟩ := h
      injection h1 with h1
      subst h1
      cases e <;> simp <;> decide
    · rw [Prod.mk.injEq] at h
      obtain ⟨h1, h2⟩ := h
      injection h1 with h1
      subst h1
      simp
    rcases haud : auditStage pub.uuid w with e | b <;> simp only [haud] at h
    · simp at h
    rcases b <;>
      (rw [Prod.mk.injEq] at h
       obtain ⟨h1, h2⟩ := h
       injection h1 with h1
       subst h1
       simp)

theorem uuidStage_hit (tok : String) (w : RowWorld) (resp : HttpResp (Option ProjectItem))
    (fp : ProjectItem) (hU : isPyUUID tok = true) (hw : w.uuidFetch = .ok resp)
    (hok : resp.ok = true) (hb : resp.jsonBody = .ok (some fp)) :
    uuidStage tok w = (.ok (some tok, some fp), true) := by
  unfold uuidStage
  rw [if_pos hU]
  simp only [hw, hok, hb, if_true]

theorem searchStage_skip (tok src : String) (m : List (String × String))
    (pu0 : Option String) (fp : ProjectItem) (w : RowWorld) :
    searchStage tok src m pu0 (some fp) w = (.ok ⟨pu0, some fp, none, none, none⟩, false) := by
  unfold searchStage
  rw [if_neg (by simp)]

/-- C8: a token that parses as a UUID triggers the direct entity fetch,
and a successful fetch short-circuits matching: the free-text search is
not issued and no ambiguity warning is ever set for the row. -/
theorem uuid_hit_short_circuits (m : List (String × String)) (row : RowIn)
    (w : RowWorld) (resp : HttpResp (Option ProjectItem)) (fp : ProjectItem)
    (hp : pidValOf row ≠ "") (hU : isPyUUID (pidValOf row) = true)
    (hw : w.uuidFetch = .ok resp) (hok : resp.ok = true)
    (hb : resp.jsonBody = .ok (some fp)) :
    (processRow m row w).2.uuidFetchCalled = true
    ∧ (processRow m row w).2.searchCalled = false
    ∧ ∀ r, (processRow m row w).1 = .ok r → r.identifier_warning = none := by
  have hu1 := uuidStage_hit (pidValOf row) w resp fp hU hw hok hb
  have hs1 := searchStage_skip (pidValOf row) ((srcOf row).getD "None") m
    (some (pidValOf row)) fp w
  unfold processRow
  rw [if_neg hp]
  simp only [hu1, hs1]
  rcases hpub : pubStage (normalizeDoi (row.doi.getD "")) w with e | po
  · simp [hpub]
  rcases po with e | _ | pub
  · simp [hpub]
  · simp [hpub]
  rcases haud : auditStage pub.uuid w with e | b
  · simp [hpub, haud]
  rcases b <;> simp [hpub, haud]

theorem uuidStage_miss (tok : String) (w : RowWorld) (resp : HttpResp (Option ProjectItem))
    (hU : isPyUUID tok = true) (hw : w.uuidFetch = .ok resp) (hok : resp.ok = false) :
    uuidStage tok w = (.ok (some tok, none), true) := by
  unfold uuidStage
  rw [if_pos hU]
  simp only [hw, hok]
  simp

theorem searchStage_go (tok src : String) (m : List (String × String))
    (pu0 : Option String) (w : RowWorld) (sresp : HttpResp SearchJson)
    (items : List ProjectItem) (hw : w.projSearch = .ok sresp)
    (hok : sresp.ok = true) (hj : sresp.jsonBody = .ok (.obj items)) :
    searchStage tok src m pu0 none w =
      (.ok (if (scanItemsAll tok items).found.isSome then
          ⟨(scanItemsAll tok items).uuid, (scanItemsAll tok items).found,
           (scanItemsAll tok items).typeUri,
           labelOf m (scanItemsAll tok items).typeUri,
           ambWarning src (scanItemsAll tok items).matchCount⟩
        else ⟨pu0, none, none, none, ambWarning src (scanItemsAll tok items).matchCount⟩),
       true) := by
  unfold searchStage
  rw [if_pos (by simp)]
  simp only [hw, hok, hj, if_true]
  split <;> rfl

/-- C10: a UUID-shaped token whose direct fetch returns a non-ok response
is not reported as not found immediately: the free-text search is issued
with the same token, the row ends as `Project not found` only if that
search also matches nothing, and a search match never yields
`Project not found`. -/
theorem uuid_miss_falls_back (m : List (String × String)) (row : RowIn)
    (w : RowWorld) (resp : HttpResp (Option ProjectItem))
    (sresp : HttpResp SearchJson) (items : List ProjectItem)
    (hp : pidValOf row ≠ "") (hU : isPyUUID (pidValOf row) = true)
    (hw : w.uuidFetch = .ok resp) (hok : resp.ok = false)
    (hsw : w.projSearch = .ok sresp) (hsok : sresp.ok = true)
    (hsj : sresp.jsonBody = .ok (.obj items)) :
    (processRow m row w).2.uuidFetchCalled = true
    ∧ (processRow m row w).2.searchCalled = true
    ∧ ((scanItemsAll (pidValOf row) items).found = none →
        ∃ r, (processRow m row w).1 = .ok r ∧ r.status = some "Project not found")
    ∧ (∀ it, (scanItemsAll (pidValOf row) items).found = some it →
        ∀ r, (processRow m row w).1 = .ok r → r.status ≠ some "Project not found") := by
  have hu1 := uuidStage_miss (pidValOf row) w resp hU hw hok
  have hs1 := searchStage_go (pidValOf row) ((srcOf row).getD "None") m
    (some (pidValOf row)) w sresp items hsw hsok hsj
  unfold processRow
  rw [if_neg hp]
  simp only [hu1, hs1]
  rcases hsc : (scanItemsAll (pidValOf row) items).found with _ | it
  · simp
  · simp only [Option.isSome_some, if_true]
    rcases hpub : pubStage (normalizeDoi (row.doi.getD "")) w with e | po
    · simp only [hpub]
      refine ⟨trivial, trivial, by simp, ?_⟩
      intro it' hit' r hr
      simp at hr
    rcases po with e | _ | pub
    · simp only [hpub]
      refine ⟨trivial, trivial, by simp, ?_⟩
      intro it' hit' r hr
      injection hr with hr
      subst hr
      cases e <;> simp <;> decide
    · simp only [hpub]
      refine ⟨trivial, trivial, by simp, ?_⟩
      intro it' hit' r hr
      injection hr with hr
      subst hr
      simp
    rcases haud : auditStage pub.uuid w with e | b
    · simp only [hpub, haud]
      refine ⟨trivial, trivial, by simp, ?_⟩
      intro it' hit' r hr
      simp at hr
    rcases b <;>
      (simp only [hpub, haud]
       refine ⟨trivial, trivial, by simp, ?_⟩
       intro it' hit' r hr
       injection hr with hr
       subst hr
       simp)

theorem uuidStage_benign (tok : String) (w : RowWorld)
    (h : benignUuid w.uuidFetch = true) : ∃ v, (uuidStage tok w).1 = .ok v := by
  unfold uuidStage
  by_cases hU : isPyUUID tok = true
  · rw [if_pos hU]
    rcases hw : w.uuidFetch with e | resp
    · rw [hw] at h
      simp only [benignUuid, beq_iff_eq] at h
      subst h
      simp
    · rw [hw] at h
      simp only [benignUuid] at h
      rcases hok : resp.ok with _ | _
      · simp [hok]
      · rw [hok] at h
        simp only [if_true] at h
        rcases hj : resp.jsonBody with e | body
        · rw [hj] at h
          simp only [beq_iff_eq] at h
          simp [hok, hj, h]
        · simp [hok, hj]
  · rw [if_neg hU]
    simp

theorem searchStage_benign (tok src : String) (m : List (String × String))
    (pu0 : Option String) (found0 : Option ProjectItem) (w : RowWorld)
    (h : benignSearch w.projSearch = true) :
    ∃ v, (searchStage tok src m pu0 found0 w).1 = .ok v := by
  unfold searchStage
  by_cases hf : found0.isNone = true
  · rw [if_pos hf]
    rcases hw : w.projSearch with e | resp
    · rw [hw] at h; simp [benignSearch] at h
    · rw [hw] at h
      simp only [benignSearch] at h
      rcases hok : resp.ok with _ | _
      · simp [hok]
      · rw [hok] at h
        simp only [if_true] at h
        rcases hj : resp.jsonBody with e | body
        · rw [hj] at h; simp at h
        · rcases body with _ | items
          · rw [hj] at h; simp at h
          · simp only [hok, hj, if_true]
            split <;> simp
  · rw [if_neg hf]
    simp

theorem pubStage_benign (doi : String) (w : RowWorld)
    (h : benignPub w.pubSearch = true) : ∃ v, pubStage doi w = .ok v := by
  unfold pubStage
  rcases hw : w.pubSearch with e | resp
  · simp
  · rw [hw] at h
    simp only [benignPub] at h
    rcases hj : resp.jsonBody with e | body
    · simp [hj]
    · rcases hok : resp.ok with _ | _
      · simp [hok, hj]
      · rw [hok] at h
        simp only [if_true] at h
        rcases body with _ | ⟨count, items⟩
        · rw [hj] at h; simp at h
        · simp only [hok, hj, if_true]
          by_cases hc : 0 < count
          · rw [if_pos hc]
            rcases findPub doi items with _ | p <;> simp
          · rw [if_neg hc]
            simp

theorem auditStage_benign (pu : String) (w : RowWorld)
    (h : benignAudit w.auditFetch = true) : ∃ b, auditStage pu w = .ok b := by
  unfold auditStage
  rcases hw : w.auditFetch with e | resp
  · rw [hw] at h; simp [benignAudit] at h
  · rw [hw] at h
    simp only [benignAudit] at h
    rcases hj : resp.jsonBody with e | body
    · rw [hj] at h; simp at h
    · rcases body with _ | ros
      · rw [hj] at h; simp at h
      · simp [hj]

theorem processRow_benign (m : List (String × String)) (row : RowIn)
    (w : RowWorld) (h : NonPubBenign w = true) :
    ∃ r t, processRow m row w = (.ok r, t) := by
  simp only [NonPubBenign, Bool.and_eq_true] at h
  obtain ⟨⟨⟨h1, h2⟩, h3⟩, h4⟩ := h
  unfold processRow
  by_cases hp : pidValOf row = ""
  · rw [if_pos hp]
    exact ⟨_, _, rfl⟩
  · rw [if_neg hp]
    obtain ⟨⟨pu0, found0⟩, hu⟩ := uuidStage_benign (pidValOf row) w h1
    simp only [hu]
    obtain ⟨sres, hs⟩ := searchStage_benign (pidValOf row) ((srcOf row).getD "None")
      m pu0 found0 w h2
    simp only [hs]
    rcases hf : sres.found with _ | fp
    · exact ⟨_, _, rfl⟩
    · obtain ⟨po, hpo⟩ := pubStage_benign (normalizeDoi (row.doi.getD "")) w h3
      simp only [hpo]
      rcases po with e | _ | pub
      · exact ⟨_, _, rfl⟩
      · exact ⟨_, _, rfl⟩
      · obtain ⟨b, hb⟩ := auditStage_benign pub.uuid w h4
        simp only [hb]
        rcases b <;> exact ⟨_, _, rfl⟩

theorem processBatch_benign (m : List (String × String))
    (batch : List (RowIn × RowWorld))
    (h : ∀ p ∈ batch, NonPubBenign p.2 = true) :
    ∃ out, processBatch m batch = .ok out ∧ out.length = batch.length := by
  induction batch with
  | nil => exact ⟨[], rfl, rfl⟩
  | cons p rest ih =>
    obtain ⟨row, wrld⟩ := p
    obtain ⟨r, t, hr⟩ := processRow_benign m row wrld (h (row, wrld) (by simp))
    obtain ⟨out, hout, hlen⟩ := ih (fun q hq => h q (by simp [hq]))
    refine ⟨r :: out, ?_, by simp [hlen]⟩
    simp [processBatch, hr, hout]

theorem mem_insSorted (a x : String) (l : List String) :
    a ∈ insSorted x l ↔ a = x ∨ a ∈ l := by
  induction l with
  | nil => simp [insSorted]
  | cons y ys ih =>
    by_cases hxy : x < y
    · simp [insSorted, hxy]
    · simp [insSorted, hxy, ih]
      tauto

theorem nodup_insSorted (x : String) (l : List String) (hx : x ∉ l)
    (h : l.Nodup) : (insSorted x l).Nodup := by
  induction l with
  | nil => simp [insSorted]
  | cons y ys ih =>
    rw [List.nodup_cons] at h
    by_cases hxy : x < y
    · unfold insSorted
      rw [if_pos hxy, List.nodup_cons, List.nodup_cons]
      exact ⟨hx, h.1, h.2⟩
    · unfold insSorted
      rw [if_neg hxy, List.nodup_cons]
      constructor
      · intro hy
        rw [mem_insSorted] at hy
        rcases hy with hy | hy
        · exact hx (by simp [hy])
        · exact h.1 hy
      · exact ih (fun hmem => hx (by simp [hmem])) h.2

theorem mem_sSort (a : String) (l : List String) : a ∈ sSort l ↔ a ∈ l := by
  induction l with
  | nil => simp [sSort]
  | cons x xs ih => simp [sSort, mem_insSorted, ih]

theorem nodup_sSort (l : List String) (h : l.Nodup) : (sSort l).Nodup := by
  induction l with
  | nil => simp [sSort]
  | cons x xs ih =>
    simp at h
    exact nodup_insSorted x (sSort xs) (fun hmem => h.1 ((mem_sSort x xs).mp hmem))
      (ih h.2)

theorem wbGroupKeys_nodup (rows : List RowResult) : (wbGroupKeys rows).Nodup :=
  nodup_sSort _ (List.nodup_dedup _)

theorem wbRun_state_not_mem (d : Bool) (pr : String → PutResp) (q : String) :
    ∀ (gs : List (String × List (Option String))) (st : ProjState),
    q ∉ gs.map Prod.fst → (wbRun d pr st gs).2 q = st q := by
  intro gs
  induction gs with
  | nil => intro st _; rfl
  | cons g gs ih =>
    intro st hq
    simp only [List.map_cons, List.mem_cons] at hq
    push_neg at hq
    unfold wbRun
    by_cases hd : d = true
    · rw [if_pos hd]
      exact ih st hq.2
    · rw [if_neg hd]
      by_cases hok : (pr g.1).ok = true
      · rw [if_pos hok]
        exact (ih (wbUpdate st g) hq.2).trans (if_neg hq.1)
      · rw [if_neg hok]
        exact ih st hq.2

theorem wbRun_state_superset (d : Bool) (pr : String → PutResp) (q : String) :
    ∀ (gs : List (String × List (Option String))) (st : ProjState),
    st q ⊆ (wbRun d pr st gs).2 q := by
  intro gs
  induction gs with
  | nil => intro st; exact Finset.Subset.refl _
  | cons g gs ih =>
    intro st
    unfold wbRun
    by_cases hd : d = true
    · rw [if_pos hd]
      exact ih st
    · rw [if_neg hd]
      by_cases hok : (pr g.1).ok = true
      · rw [if_pos hok]
        show st q ⊆ (wbRun d pr (wbUpdate st g) gs).2 q
        refine Finset.Subset.trans ?_ (ih (wbUpdate st g))
        unfold wbUpdate wbMerge
        by_cases hq : q = g.1
        · subst hq
          rw [if_pos rfl]
          exact Finset.subset_union_left
        · rw [if_neg hq]
      · rw [if_neg hok]
        exact ih st

theorem wbRun_put_mem (pr : String → PutResp) (p : String)
    (T : List (Option String)) :
    ∀ (gs : List (String × List (Option String))) (st : ProjState),
    (gs.map Prod.fst).Nodup → (p, T) ∈ gs →
    (p, st p ∪ T.toFinset) ∈ (wbRun false pr st gs).1.puts
    ∧ (wbRun false pr st gs).2 p =
        (if (pr p).ok then st p ∪ T.toFinset else st p) := by
  intro gs
  induction gs with
  | nil => intro st _ hmem; simp at hmem
  | cons g gs ih =>
    obtain ⟨g1, g2⟩ := g
    intro st hnd hmem
    simp only [List.map_cons, List.nodup_cons] at hnd
    rcases List.mem_cons.mp hmem with hg | hg
    · injection hg with h1 h2
      subst h1
      subst h2
      have hpnot : p ∉ gs.map Prod.fst := hnd.1
      by_cases hok : (pr p).ok = true
      · constructor
        · unfold wbRun
          rw [if_neg (by simp), if_pos hok]
          show (p, st p ∪ T.toFinset) ∈
            ((wbRun false pr (wbUpdate st (p, T)) gs).1.withLinked (p, T)
              (wbMerge st (p, T))).puts
          unfold WbEffects.withLinked wbMerge
          exact List.mem_cons_self _ _
        · unfold wbRun
          rw [if_neg (by simp), if_pos hok]
          show (wbRun false pr (wbUpdate st (p, T)) gs).2 p = _
          rw [wbRun_state_not_mem false pr p gs (wbUpdate st (p, T)) hpnot]
          rw [if_pos hok]
          show wbUpdate st (p, T) p = st p ∪ T.toFinset
          unfold wbUpdate wbMerge
          rw [if_pos rfl]
      · constructor
        · unfold wbRun
          rw [if_neg (by simp), if_neg hok]
          show (p, st p ∪ T.toFinset) ∈
            ((wbRun false pr st gs).1.withFailed (p, T) (wbMerge st (p, T))
              (pr p).statusCode).puts
          unfold WbEffects.withFailed wbMerge
          exact List.mem_cons_self _ _
        · unfold wbRun
          rw [if_neg (by simp), if_neg hok]
          show (wbRun false pr st gs).2 p = _
          rw [wbRun_state_not_mem false pr p gs st hpnot]
          rw [if_neg hok]
    · have hne : p ≠ g1 := by
        intro he
        apply hnd.1
        rw [← he]
        exact List.mem_map.mpr ⟨(p, T), hg, rfl⟩
      by_cases hok : (pr g1).ok = true
      · have ihr := ih (wbUpdate st (g1, g2)) hnd.2 hg
        have hst : wbUpdate st (g1, g2) p = st p := by
          unfold wbUpdate
          exact if_neg hne
        rw [hst] at ihr
        constructor
        · unfold wbRun
          rw [if_neg (by simp), if_pos hok]
          show (p, st p ∪ T.toFinset) ∈
            ((wbRun false pr (wbUpdate st (g1, g2)) gs).1.withLinked (g1, g2)
              (wbMerge st (g1, g2))).puts
          unfold WbEffects.withLinked
          exact List.mem_cons_of_mem _ ihr.1
        · unfold wbRun
          rw [if_neg (by simp), if_pos hok]
          show (wbRun false pr (wbUpdate st (g1, g2)) gs).2 p = _
          exact ihr.2
      · have ihr := ih st hnd.2 hg
        constructor
        · unfold wbRun
          rw [if_neg (by simp), if_neg hok]
          show (p, st p ∪ T.toFinset) ∈
            ((wbRun false pr st gs).1.withFailed (g1, g2) (wbMerge st (g1, g2))
              (pr g1).statusCode).puts
          unfold WbEffects.withFailed
          exact List.mem_cons_of_mem _ ihr.1
        · unfold wbRun
          rw [if_neg (by simp), if_neg hok]
          exact ihr.2

theorem wbRun_puts_length (pr : String → PutResp) :
    ∀ (gs : List (String × List (Option String))) (st : ProjState),
    (wbRun false pr st gs).1.puts.length = gs.length := by
  intro gs
  induction gs with
  | nil => intro st; rfl
  | cons g gs ih =>
    intro st
    unfold wbRun
    rw [if_neg (by simp)]
    by_cases hok : (pr g.1).ok = true
    · rw [if_pos hok]
      show ((wbRun false pr (wbUpdate st g) gs).1.withLinked g
        (wbMerge st g)).puts.length = (g :: gs).length
      unfold WbEffects.withLinked
      simp [ih]
    · rw [if_neg hok]
      show ((wbRun false pr st gs).1.withFailed g (wbMerge st g)
        (pr g.1).statusCode).puts.length = (g :: gs).length
      unfold WbEffects.withFailed
      simp [ih]

theorem wbRun_dry (pr : String → PutResp) :
    ∀ (gs : List (String × List (Option String))) (st : ProjState),
    (wbRun true pr st gs).1.puts = []
    ∧ (wbRun true pr st gs).1.log = intendedDryLog gs
    ∧ (wbRun true pr st gs).2 = st := by
  intro gs
  induction gs with
  | nil => intro st; exact ⟨rfl, rfl, rfl⟩
  | cons g gs ih =>
    intro st
    unfold wbRun
    rw [if_pos rfl]
    refine ⟨?_, ?_, ?_⟩
    · show ((wbRun true pr st gs).1.withDry g).puts = []
      unfold WbEffects.withDry
      exact (ih st).1
    · show ((wbRun true pr st gs).1.withDry g).log = intendedDryLog (g :: gs)
      unfold WbEffects.withDry intendedDryLog
      rw [(ih st).2.1]
    · show (wbRun true pr st gs).2 = st
      exact (ih st).2.2

theorem dropWhile_no (p : Char → Bool) (l : List Char)
    (h : ∀ c ∈ l, p c = false) : l.dropWhile p = l := by
  cases l with
  | nil => rfl
  | cons x xs =>
    rw [List.dropWhile_cons, if_neg]
    simp [h x (by simp)]

theorem stripEnds_no (p : Char → Bool) (l : List Char)
    (h : ∀ c ∈ l, p c = false) : stripEnds p l = l := by
  unfold stripEnds
  rw [dropWhile_no p l h]
  rw [dropWhile_no p l.reverse (fun c hc => h c (List.mem_reverse.mp hc))]
  exact List.reverse_reverse l

theorem dropWhile_append_all (p : Char → Bool) (l1 l2 : List Char)
    (h : ∀ c ∈ l1, p c = true) :
    (l1 ++ l2).dropWhile p = l2.dropWhile p := by
  induction l1 with
  | nil => rfl
  | cons x xs ih =>
    rw [List.cons_append, List.dropWhile_cons, if_pos (h x (by simp))]
    exact ih (fun c hc => h c (by simp [hc]))

theorem cTake_no (c : Char) (l : List Char) (h : ∀ x ∈ l, x ≠ c) :
    cTake c l = l := by
  induction l with
  | nil => rfl
  | cons x xs ih =>
    unfold cTake
    rw [if_neg (h x (by simp))]
    rw [ih (fun y hy => h y (by simp [hy]))]

theorem cSplitAt_append (c : Char) :
    ∀ (l1 l2 a b : List Char), cSplitAt c l1 = some (a, b) →
    cSplitAt c (l1 ++ l2) = some (a, b ++ l2) := by
  intro l1
  induction l1 with
  | nil => intro l2 a b h; simp [cSplitAt] at h
  | cons x xs ih =>
    intro l2 a b h
    rw [List.cons_append]
    unfold cSplitAt at h ⊢
    by_cases hx : x = c
    · rw [if_pos hx] at h ⊢
      injection h with h
      rw [Prod.mk.injEq] at h
      obtain ⟨ha, hb⟩ := h
      subst ha
      subst hb
      rfl
    · rw [if_neg hx] at h ⊢
      rcases hsp : cSplitAt c xs with _ | ⟨a', b'⟩
      · rw [hsp] at h
        simp at h
      · rw [hsp] at h
        simp at h
        obtain ⟨ha, hb⟩ := h
        rw [ih l2 a' b' hsp]
        subst ha
        subst hb
        simp

theorem cSplitAt_eq (c : Char) :
    ∀ (l a b : List Char), cSplitAt c l = some (a, b) → l = a ++ c :: b := by
  intro l
  induction l with
  | nil => intro a b h; simp [cSplitAt] at h
  | cons x xs ih =>
    intro a b h
    unfold cSplitAt at h
    by_cases hx : x = c
    · rw [if_pos hx] at h
      injection h with h
      rw [Prod.mk.injEq] at h
      obtain ⟨ha, hb⟩ := h
      subst ha
      subst hb
      simp [hx]
    · rw [if_neg hx] at h
      rcases hsp : cSplitAt c xs with _ | ⟨a', b'⟩
      · rw [hsp] at h
        simp at h
      · rw [hsp] at h
        simp at h
        obtain ⟨ha, hb⟩ := h
        subst hb
        rw [← ha]
        rw [List.cons_append]
        rw [← ih a' b' hsp]

theorem cSplitAtLast_eq (c : Char) (l a b : List Char)
    (h : cSplitAtLast c l = some (a, b)) : l = a ++ c :: b := by
  unfold cSplitAtLast at h
  rcases hsp : cSplitAt c l.reverse with _ | ⟨a', b'⟩
  · rw [hsp] at h
    simp at h
  · rw [hsp] at h
    injection h with h
    rw [Prod.mk.injEq] at h
    obtain ⟨ha, hb⟩ := h
    have := cSplitAt_eq c l.reverse a' b' hsp
    have h2 : l.reverse.reverse = (a' ++ c :: b').reverse := by rw [this]
    rw [List.reverse_reverse] at h2
    rw [h2, List.reverse_append, List.reverse_cons]
    rw [← ha, ← hb]
    simp

theorem paramsCut_no (l : List Char) (h : ∀ x ∈ l, x ≠ ';') :
    paramsCut l = l := by
  unfold paramsCut
  rcases hsp : cSplitAtLast '/' l with _ | ⟨a, b⟩
  · exact cTake_no ';' l h
  · have hl := cSplitAtLast_eq '/' l a b hsp
    show a ++ '/' :: cTake ';' b = l
    rw [cTake_no ';' b (fun x hx => h x (by rw [hl]; simp [hx]))]
    rw [← hl]

/-- C9: for a bare DOI `d` (no whitespace, no `#`, `?` or `;`, no leading
slash) that is not itself a URL, normalizing the URL form
`https://doi.org/<d>` yields `d`, and normalizing `d` yields `d`. -/
theorem doi_url_and_bare_normalize_alike (d : String)
    (hws : ∀ c ∈ d.data, pyWs c = false)
    (hspec : ∀ c ∈ d.data, c ≠ '#' ∧ c ≠ '?' ∧ c ≠ ';')
    (hhead : d.data.head? ≠ some '/')
    (hhttp : leadsWith "http".data d.data = false) :
    normalizeDoi ("https://doi.org/" ++ d) = d ∧ normalizeDoi d = d := by
  have hnum : ∀ x ∈ '/' :: d.data, x ≠ '#' := by
    intro x hx
    rcases List.mem_cons.mp hx with hx | hx
    · subst hx; decide
    · exact (hspec x hx).1
  have hque : ∀ x ∈ '/' :: d.data, x ≠ '?' := by
    intro x hx
    rcases List.mem_cons.mp hx with hx | hx
    · subst hx; decide
    · exact (hspec x hx).2.1
  have hsem : ∀ x ∈ '/' :: d.data, x ≠ ';' := by
    intro x hx
    rcases List.mem_cons.mp hx with hx | hx
    · subst hx; decide
    · exact (hspec x hx).2.2
  have hds : dropSlashes d.data = d.data := by
    unfold dropSlashes
    cases hd : d.data with
    | nil => rfl
    | cons x xs =>
      have hx : x ≠ '/' := by
        intro he
        rw [hd, he] at hhead
        exact hhead rfl
      rw [List.dropWhile_cons, if_neg (by simp [hx])]
  constructor
  · have hdata : ("https://doi.org/" ++ d).data = "https://doi.org/".data ++ d.data :=
      String.data_append _ _
    have hlit : ∀ c ∈ "https://doi.org/".data, pyWs c = false := by decide
    have hall : ∀ c ∈ "https://doi.org/".data ++ d.data, pyWs c = false := by
      intro c hc
      rcases List.mem_append.mp hc with hc | hc
      · exact hlit c hc
      · exact hws c hc
    have hstrip : stripEnds pyWs ("https://doi.org/".data ++ d.data) =
        "https://doi.org/".data ++ d.data := stripEnds_no _ _ hall
    have hlead : leadsWith "http".data ("https://doi.org/".data ++ d.data) = true := rfl
    have hsplit := cSplitAt_append ':' "https://doi.org/".data d.data
      "https".data "//doi.org/".data (by decide)
    have hsch : schemeSplit ("https://doi.org/".data ++ d.data) =
        ("https".data, "//doi.org/".data ++ d.data) := by
      unfold schemeSplit
      simp only [hsplit]
      rw [if_pos (by decide)]
      rw [Prod.mk.injEq]
      exact ⟨by decide, rfl⟩
    have hnet : netlocCut ("//doi.org/".data ++ d.data) =
        ("doi.org".data ++ ('/' :: d.data)).dropWhile
          (fun c => !(c = '/' || c = '?' || c = '#')) := rfl
    have hnet2 : netlocCut ("//doi.org/".data ++ d.data) = '/' :: d.data := by
      rw [hnet]
      rw [dropWhile_append_all _ "doi.org".data _ (by decide)]
      rw [List.dropWhile_cons, if_neg (by decide)]
    have hurl : urlPathOf ("https://doi.org/".data ++ d.data) = '/' :: d.data := by
      unfold urlPathOf
      simp only [hsch]
      rw [if_pos (show (⟨"https".data⟩ : String) ∈ usesParams by decide)]
      rw [hnet2]
      rw [cTake_no '#' ('/' :: d.data) hnum]
      rw [cTake_no '?' ('/' :: d.data) hque]
      exact paramsCut_no _ hsem
    unfold normalizeDoi
    rw [hdata, hstrip, if_pos hlead, hurl]
    show (⟨dropSlashes ('/' :: d.data)⟩ : String) = d
    unfold dropSlashes
    rw [List.dropWhile_cons, if_pos (by decide)]
    have : List.dropWhile (fun c => c = '/') d.data = d.data := hds
    rw [this]
  · unfold normalizeDoi
    rw [stripEnds_no pyWs d.data hws]
    rw [if_neg (show ¬(leadsWith "http".data d.data = true) by simp [hhttp])]

theorem wbGroups_map_fst (rows : List RowResult) :
    (wbGroups rows).map Prod.fst = wbGroupKeys rows := by
  unfold wbGroups
  rw [List.map_map]
  exact List.map_id _

/-- C1: for every project touched by the Writeback Executor, the set sent
in its `PUT` is the union of the freshly re-fetched existing related-output
set and the group's publication uuids, and the remote set after the run is
a superset of the set before it, for every project. -/
theorem writeback_additive (rows : List RowResult) (st : ProjState)
    (pr : String → PutResp) (p : String) (hp : p ∈ wbGroupKeys rows) :
    (p, st p ∪ (wbToAdd rows p).toFinset) ∈ (writeback false pr st rows).1.puts
    ∧ ∀ q, st q ⊆ (writeback false pr st rows).2 q := by
  have hnd : ((wbGroups rows).map Prod.fst).Nodup := by
    rw [wbGroups_map_fst]
    exact wbGroupKeys_nodup rows
  have hmem : (p, wbToAdd rows p) ∈ wbGroups rows := by
    unfold wbGroups
    exact List.mem_map.mpr ⟨p, hp, rfl⟩
  have h := wbRun_put_mem pr p (wbToAdd rows p) (wbGroups rows) st hnd hmem
  exact ⟨h.1, fun q => wbRun_state_superset false pr q (wbGroups rows) st⟩

/-- C1, witness: the additive-writeback theorem applied to a concrete
two-row ready batch over an empty remote project. -/
theorem writeback_additive_witness :
    ("proj-1", exState "proj-1" ∪ (wbToAdd exTwoRows "proj-1").toFinset) ∈
      (writeback false prOk exState exTwoRows).1.puts
    ∧ ∀ q, exState q ⊆ (writeback false prOk exState exTwoRows).2 q :=
  writeback_additive exTwoRows exState prOk "proj-1" (by decide)

/-- C6: running the live writeback twice with the same ready rows, the
second run starting from the state the first run produced (all writes
accepted), leaves every project's related-output set exactly as after the
single run, and the second run still issues one `PUT` per group. -/
theorem writeback_idem (rows : List RowResult) (st : ProjState) :
    (∀ q, (writeback false prOk (writeback false prOk st rows).2 rows).2 q
        = (writeback false prOk st rows).2 q)
    ∧ (writeback false prOk (writeback false prOk st rows).2 rows).1.puts.length
        = (wbGroupKeys rows).length := by
  have hnd : ((wbGroups rows).map Prod.fst).Nodup := by
    rw [wbGroups_map_fst]
    exact wbGroupKeys_nodup rows
  constructor
  · intro q
    by_cases hq : q ∈ wbGroupKeys rows
    · have hmem : (q, wbToAdd rows q) ∈ wbGroups rows := by
        unfold wbGroups
        exact List.mem_map.mpr ⟨q, hq, rfl⟩
      have h1 := (wbRun_put_mem prOk q (wbToAdd rows q) (wbGroups rows) st hnd hmem).2
      have h2 := (wbRun_put_mem prOk q (wbToAdd rows q) (wbGroups rows)
        (wbRun false prOk st (wbGroups rows)).2 hnd hmem).2
      rw [if_pos (show (prOk q).ok = true from rfl)] at h1 h2
      show (wbRun false prOk (wbRun false prOk st (wbGroups rows)).2
        (wbGroups rows)).2 q = (wbRun false prOk st (wbGroups rows)).2 q
      rw [h2, h1]
      rw [Finset.union_assoc, Finset.union_self]
    · have hq' : q ∉ (wbGroups rows).map Prod.fst := by
        rw [wbGroups_map_fst]
        exact hq
      show (wbRun false prOk (wbRun false prOk st (wbGroups rows)).2
        (wbGroups rows)).2 q = (wbRun false prOk st (wbGroups rows)).2 q
      rw [wbRun_state_not_mem false prOk q (wbGroups rows) _ hq']
  · show (wbRun false prOk (wbRun false prOk st (wbGroups rows)).2
      (wbGroups rows)).1.puts.length = (wbGroupKeys rows).length
    rw [wbRun_puts_length prOk (wbGroups rows)]
    rw [← wbGroups_map_fst rows]
    exact (List.length_map _ _).symm

theorem intendedDryLog_length :
    ∀ gs : List (String × List (Option String)),
    (intendedDryLog gs).length = ((gs.map (fun g => g.2.length)).sum) := by
  intro gs
  induction gs with
  | nil => rfl
  | cons g gs ih => simp [intendedDryLog, ih]

/-- C7: in dry-run mode the Writeback Executor issues zero `PUT` calls
and logs exactly one `Dry run` entry per intended publication addition;
in particular two ready rows of the same project yield two `Dry run`
entries and no write. -/
theorem writeback_dry_effects (rows : List RowResult) (st : ProjState)
    (pr : String → PutResp) :
    (writeback true pr st rows).1.puts = []
    ∧ (writeback true pr st rows).1.log = intendedDryLog (wbGroups rows)
    ∧ (writeback true pr st rows).1.log.length =
        ((wbGroups rows).map (fun g => g.2.length)).sum
    ∧ (writeback true prOk exState exTwoRows).1.puts = []
    ∧ (writeback true prOk exState exTwoRows).1.log =
        [("proj-1", some "pub-1", "✅ Dry run"),
         ("proj-1", some "pub-2", "✅ Dry run")] :=
  ⟨(wbRun_dry pr (wbGroups rows) st).1, (wbRun_dry pr (wbGroups rows) st).2.1,
   by show (wbRun true pr st (wbGroups rows)).1.log.length =
        ((wbGroups rows).map (fun g => g.2.length)).sum
      rw [(wbRun_dry pr (wbGroups rows) st).2.1]
      exact intendedDryLog_length (wbGroups rows),
   by decide, by decide⟩

theorem pubStage_catches (w : RowWorld) (e : PyExn) (doi : String)
    (h : w.pubSearch = .error e) : pubStage doi w = .ok (.failedStatus e) := by
  unfold pubStage
  rw [h]

/-- C4, amended: only the publication search is guarded.  When every
call other than the publication search behaves (no raising project fetch
other than `ValueError`-class, no raising project search or audit fetch,
no ok-but-null publication body), no exception escapes and every row
yields a result; and a raising publication search is always converted
into the row's `DOI lookup failed` status. -/
theorem batch_error_containment (m : List (String × String))
    (batch : List (RowIn × RowWorld))
    (h : ∀ p ∈ batch, NonPubBenign p.2 = true) :
    (∃ out, processBatch m batch = .ok out ∧ out.length = batch.length)
    ∧ ∀ (w : RowWorld) (e : PyExn) (doi : String), w.pubSearch = .error e →
        pubStage doi w = .ok (.failedStatus e) :=
  ⟨processBatch_benign m batch h, fun w e doi hw => pubStage_catches w e doi hw⟩

/-- C4, witness: the amended theorem applied to a concrete one-row batch
whose calls are all well-behaved. -/
theorem batch_error_containment_witness :
    (∃ out, processBatch exIdtypeMap [(exRow, exWorldReady)] = .ok out
      ∧ out.length = [(exRow, exWorldReady)].length)
    ∧ ∀ (w : RowWorld) (e : PyExn) (doi : String), w.pubSearch = .error e →
        pubStage doi w = .ok (.failedStatus e) :=
  batch_error_containment exIdtypeMap [(exRow, exWorldReady)] (by decide)

/-- C4, counterexample: a transport error raised by the relation-audit
fetch of the first row is not caught anywhere; it escapes the batch loop
and the second row is never processed, refuting the claim that every
remote-call failure is converted into a row status. -/
theorem audit_failure_escapes_batch :
    processBatch [] [(exRow, exWorldCrash), (exRow, exWorldReady)] =
      .error .otherError := by decide

/-- C3, witness: the invariant applied to a concrete row that resolves to
`Ready to link`. -/
theorem ready_iff_witness :
    exReadyRes.link = true ↔ exReadyRes.status = some "Ready to link" :=
  ready_iff exIdtypeMap exRow exWorldReady exReadyRes ⟨false, true, true, true⟩
    (by decide)

/-- C8, witness: the short-circuit theorem applied to a concrete
version-4 UUID token whose direct fetch succeeds. -/
theorem uuid_hit_witness :
    (processRow exIdtypeMap exRowUuid exWorldUuid).2.uuidFetchCalled = true
    ∧ (processRow exIdtypeMap exRowUuid exWorldUuid).2.searchCalled = false
    ∧ ∀ r, (processRow exIdtypeMap exRowUuid exWorldUuid).1 = .ok r →
        r.identifier_warning = none :=
  uuid_hit_short_circuits exIdtypeMap exRowUuid exWorldUuid exRespU exProjU
    (by decide) (by decide) rfl rfl rfl

/-- C10, witness: the fallback theorem applied to a concrete UUID token
whose direct fetch is a 404 and whose search returns no candidates. -/
theorem uuid_miss_witness :
    (processRow exIdtypeMap exRowUuid exWorldUuidMiss).2.uuidFetchCalled = true
    ∧ (processRow exIdtypeMap exRowUuid exWorldUuidMiss).2.searchCalled = true
    ∧ ((scanItemsAll (pidValOf exRowUuid) []).found = none →
        ∃ r, (processRow exIdtypeMap exRowUuid exWorldUuidMiss).1 = .ok r
          ∧ r.status = some "Project not found")
    ∧ (∀ it, (scanItemsAll (pidValOf exRowUuid) []).found = some it →
        ∀ r, (processRow exIdtypeMap exRowUuid exWorldUuidMiss).1 = .ok r →
          r.status ≠ some "Project not found") :=
  uuid_miss_falls_back exIdtypeMap exRowUuid exWorldUuidMiss exRespMiss
    exSearchResp [] (by decide) (by decide) rfl rfl rfl rfl rfl

/-- C9, witness: `https://doi.org/10.1/x` and `10.1/x` normalize to the
same bare DOI. -/
theorem doi_witness :
    normalizeDoi ("https://doi.org/" ++ "10.1/x") = "10.1/x"
    ∧ normalizeDoi "10.1/x" = "10.1/x" :=
  doi_url_and_bare_normalize_alike "10.1/x" (by decide) (by decide) (by decide)
    (by decide)

end Pla
